import Mathlib

/-!
Verification of the job-tracker frontend (React single-page application).

The file shallowly embeds the data flow of the three pages (Applications,
Analytics, Companies in two variants) as pure Lean functions.  Network calls
are modelled by passing the outcome of the call (`FetchResult`) as an
argument: the functions return the successor component state together with
the list of HTTP requests issued, in issue order.  `fetch` resolves for any
HTTP response (the `ok` flag records 2xx-ness) and rejects only on network
errors; `json()` failures are modelled by an absent (`none`) body payload.
-/

/-- Characters of a list occur, in order and contiguously, at the front. -/
def leadsWith : List Char → List Char → Bool
  | [], _ => true
  | _ :: _, [] => false
  | a :: pa, b :: pb => a == b && leadsWith pa pb

/-- Boolean contiguous-occurrence scan, the semantics of JS `String.includes`. -/
def scanContains (pat : List Char) : List Char → Bool
  | [] => leadsWith pat []
  | b :: bs => leadsWith pat (b :: bs) || scanContains pat bs

/-- `pat` occurs contiguously inside `s`. -/
def Occurs (pat s : List Char) : Prop := ∃ l r, s = l ++ pat ++ r

/-- `p` is a terminal segment of `s`. -/
def sfxP (p s : List Char) : Prop := ∃ l, s = l ++ p

theorem leadsWith_iff (pat s : List Char) :
    leadsWith pat s = true ↔ ∃ r, s = pat ++ r := by
  induction pat generalizing s with
  | nil => simp [leadsWith]
  | cons a pa ih =>
    cases s with
    | nil => simp [leadsWith]
    | cons b bs =>
      simp only [leadsWith, Bool.and_eq_true, beq_iff_eq, ih]
      constructor
      · rintro ⟨rfl, r, rfl⟩; exact ⟨r, rfl⟩
      · rintro ⟨r, hr⟩
        injection hr with h1 h2
        exact ⟨h1.symm, r, h2⟩

theorem scanContains_iff (pat s : List Char) :
    scanContains pat s = true ↔ Occurs pat s := by
  induction s with
  | nil =>
    simp only [scanContains, leadsWith_iff, Occurs]
    constructor
    · rintro ⟨r, hr⟩
      exact ⟨[], r, by simpa using hr⟩
    · rintro ⟨l, r, h⟩
      refine ⟨r, ?_⟩
      rcases List.append_eq_nil.1 (List.append_eq_nil.1 h.symm).1 with ⟨h1, h2⟩
      simp_all
  | cons b bs ih =>
    simp only [scanContains, Bool.or_eq_true, leadsWith_iff, ih, Occurs]
    constructor
    · rintro (⟨r, hr⟩ | ⟨l, r, hr⟩)
      · exact ⟨[], r, by simpa using hr⟩
      · exact ⟨b :: l, r, by simp [hr]⟩
    · rintro ⟨l, r, h⟩
      cases l with
      | nil => exact Or.inl ⟨r, by simpa using h⟩
      | cons c l' =>
        injection h with h1 h2
        exact Or.inr ⟨l', r, h2⟩

instance (pat s : List Char) : Decidable (Occurs pat s) :=
  decidable_of_iff _ (scanContains_iff pat s)

/-- `pat` occurs contiguously in string `s` (semantics of JS `includes`). -/
def containsStr (s pat : String) : Prop := Occurs pat.data s.data

instance (s pat : String) : Decidable (containsStr s pat) :=
  inferInstanceAs (Decidable (Occurs pat.data s.data))

theorem occurs_append (l pat r : List Char) : Occurs pat (l ++ pat ++ r) := ⟨l, r, rfl⟩

theorem not_occurs_of_not_mem {q : List Char} {c : Char} {s : List Char}
    (hc : c ∉ s) : ¬ Occurs (q ++ [c]) s := by
  rintro ⟨l, r, rfl⟩
  exact hc (by simp)

/-- Any occurrence of a pattern ending in `c` marks a position of `c` that is
directly preceded by the rest of the pattern. -/
theorem occurs_concat_mark {q : List Char} {c : Char} {s : List Char}
    (h : Occurs (q ++ [c]) s) : ∃ x y, s = x ++ c :: y ∧ sfxP q x := by
  rcases h with ⟨l, r, rfl⟩
  exact ⟨l ++ q, r, by simp, ⟨l, rfl⟩⟩

/-- Splitting an occurrence position of `c` against the first occurrence of
`c` in the ambient list. -/
theorem split_at_char {c : Char} {u1 u2 x y : List Char} (hc : c ∉ u1)
    (h : u1 ++ c :: u2 = x ++ c :: y) :
    (x = u1 ∧ y = u2) ∨ ∃ x2, x = u1 ++ c :: x2 ∧ u2 = x2 ++ c :: y := by
  rcases List.append_eq_append_iff.1 h with ⟨a, ha, hb⟩ | ⟨a, ha, hb⟩
  · cases a with
    | nil =>
      simp only [List.nil_append] at hb
      injection hb with _ hb2
      exact Or.inl ⟨by simpa using ha, hb2.symm⟩
    | cons a0 a2 =>
      simp only [List.cons_append] at hb
      injection hb with hb1 hb2
      subst hb1
      exact Or.inr ⟨a2, by simpa using ha, hb2⟩
  · cases a with
    | nil =>
      simp only [List.nil_append] at hb
      injection hb with _ hb2
      simp only [List.append_nil] at ha
      exact Or.inl ⟨ha.symm, hb2⟩
    | cons a0 a2 =>
      simp only [List.cons_append] at hb
      injection hb with hb1 hb2
      exact absurd (by simp [ha, ← hb1] : c ∈ u1) hc

/-- In a list with a single marked `c` position and `c` nowhere else, every
occurrence of a pattern ending in `c` ends at that position. -/
theorem occurs_single_mark {q : List Char} {c : Char} {u1 u2 : List Char}
    (h1 : c ∉ u1) (h2 : c ∉ u2) (h : Occurs (q ++ [c]) (u1 ++ c :: u2)) :
    sfxP q u1 := by
  rcases occurs_concat_mark h with ⟨x, y, hxy, hsfx⟩
  rcases split_at_char h1 hxy with ⟨rfl, rfl⟩ | ⟨x2, rfl, hu2⟩
  · exact hsfx
  · exact absurd (by simp [hu2]) h2

/-- Two marked `c` positions, `c` nowhere else: every occurrence of a pattern
ending in `c` ends at one of the two. -/
theorem occurs_double_mark {q : List Char} {c : Char} {u1 u2 u3 : List Char}
    (h1 : c ∉ u1) (h2 : c ∉ u2) (h3 : c ∉ u3)
    (h : Occurs (q ++ [c]) (u1 ++ c :: u2 ++ c :: u3)) :
    sfxP q u1 ∨ sfxP q (u1 ++ c :: u2) := by
  rcases occurs_concat_mark h with ⟨x, y, hxy, hsfx⟩
  have hxy' : u1 ++ c :: (u2 ++ c :: u3) = x ++ c :: y := by
    simpa using hxy
  rcases split_at_char h1 hxy' with ⟨rfl, rfl⟩ | ⟨x2, rfl, hrest⟩
  · exact Or.inl hsfx
  · rcases split_at_char h2 hrest with ⟨rfl, rfl⟩ | ⟨x3, rfl, hu3⟩
    · exact Or.inr hsfx
    · exact absurd (by simp [hu3]) h3

theorem sfxP_append (p l : List Char) : sfxP p (l ++ p) := ⟨l, rfl⟩

theorem sfxP_ext {p x y : List Char} (h : sfxP p y) : sfxP p (x ++ y) := by
  rcases h with ⟨l, rfl⟩
  exact ⟨x ++ l, by simp⟩

theorem sfx_len_eq {a b s : List Char} (ha : sfxP a s) (hb : sfxP b s)
    (hl : a.length = b.length) : a = b := by
  rcases ha with ⟨l1, rfl⟩
  rcases hb with ⟨l2, h⟩
  exact (List.append_inj' h hl).2

/-! ### JS built-ins used by the pages -/

/-- Upper-case hexadecimal digit, as used by `encodeURIComponent`. -/
def hexDigit (n : Nat) : Char := if n < 10 then Char.ofNat (48 + n) else Char.ofNat (55 + n)

/-- `%XX` escape of one byte. -/
def percentByte (b : Nat) : List Char := [Char.ofNat 37, hexDigit (b / 16), hexDigit (b % 16)]

/-- UTF-8 bytes of a character (code points are valid, so at most 4 bytes). -/
def utf8Bytes (c : Char) : List Nat :=
  if c.toNat < 128 then [c.toNat]
  else if c.toNat < 2048 then [192 + c.toNat / 64, 128 + c.toNat % 64]
  else if c.toNat < 65536 then
    [224 + c.toNat / 4096, 128 + (c.toNat / 64) % 64, 128 + c.toNat % 64]
  else
    [240 + c.toNat / 262144, 128 + (c.toNat / 4096) % 64, 128 + (c.toNat / 64) % 64,
     128 + c.toNat % 64]

/-- The characters `encodeURIComponent` leaves unescaped:
`A-Z a-z 0-9 - _ . ! ~ * ( )` and the apostrophe (code 39). -/
def uriUnescaped (c : Char) : Bool :=
  decide ((48 ≤ c.toNat ∧ c.toNat ≤ 57) ∨ (65 ≤ c.toNat ∧ c.toNat ≤ 90) ∨
    (97 ≤ c.toNat ∧ c.toNat ≤ 122) ∨
    c.toNat ∈ ([45, 95, 46, 33, 126, 42, 39, 40, 41] : List Nat))

/-- JS `encodeURIComponent`: unescaped characters pass through, every other
character is replaced by the `%XX` escapes of its UTF-8 bytes. -/
def encodeURIComponent (s : String) : String :=
  String.mk ((s.data.map fun c =>
    if uriUnescaped c then [c] else ((utf8Bytes c).map percentByte).flatten).flatten)

def hexChars : List Char :=
  ['0','1','2','3','4','5','6','7','8','9','A','B','C','D','E','F']

theorem char_toNat_lt (c : Char) : c.toNat < 1114112 := by
  have h := c.valid
  rcases h with h | ⟨h1, h2⟩
  · exact Nat.lt_trans h (by norm_num)
  · exact h2

theorem utf8Bytes_lt (c : Char) : ∀ b ∈ utf8Bytes c, b < 256 := by
  intro b hb
  have hc := char_toNat_lt c
  unfold utf8Bytes at hb
  split_ifs at hb with h1 h2 h3
  · simp only [List.mem_singleton] at hb; omega
  · have hd : c.toNat / 64 < 32 := Nat.div_lt_of_lt_mul (by omega)
    have hm : c.toNat % 64 < 64 := Nat.mod_lt _ (by omega)
    simp only [List.mem_cons, List.mem_singleton, List.not_mem_nil, or_false] at hb
    rcases hb with rfl | rfl <;> omega
  · have hd : c.toNat / 4096 < 16 := Nat.div_lt_of_lt_mul (by omega)
    have hm1 : (c.toNat / 64) % 64 < 64 := Nat.mod_lt _ (by omega)
    have hm : c.toNat % 64 < 64 := Nat.mod_lt _ (by omega)
    simp only [List.mem_cons, List.mem_singleton, List.not_mem_nil, or_false] at hb
    rcases hb with rfl | rfl | rfl <;> omega
  · have hd : c.toNat / 262144 < 5 := Nat.div_lt_of_lt_mul (by omega)
    have hm1 : (c.toNat / 4096) % 64 < 64 := Nat.mod_lt _ (by omega)
    have hm2 : (c.toNat / 64) % 64 < 64 := Nat.mod_lt _ (by omega)
    have hm : c.toNat % 64 < 64 := Nat.mod_lt _ (by omega)
    simp only [List.mem_cons, List.mem_singleton, List.not_mem_nil, or_false] at hb
    rcases hb with rfl | rfl | rfl | rfl <;> omega

theorem hexDigit_mem : ∀ m, m < 16 → hexDigit m ∈ hexChars := by decide

theorem mem_encodeURIComponent {s : String} {ch : Char}
    (h : ch ∈ (encodeURIComponent s).data) :
    uriUnescaped ch = true ∨ ch = Char.ofNat 37 ∨ ch ∈ hexChars := by
  simp only [encodeURIComponent] at h
  rcases List.mem_flatten.1 h with ⟨seg, hseg, hch⟩
  rcases List.mem_map.1 hseg with ⟨a, _, rfl⟩
  by_cases hu : uriUnescaped a
  · rw [if_pos hu] at hch
    simp only [List.mem_singleton] at hch
    subst hch
    exact Or.inl hu
  · rw [if_neg hu] at hch
    rcases List.mem_flatten.1 hch with ⟨pb, hpb, hc2⟩
    rcases List.mem_map.1 hpb with ⟨b, hb, rfl⟩
    have hblt := utf8Bytes_lt a b hb
    simp only [percentByte, List.mem_cons, List.mem_singleton, List.not_mem_nil,
      or_false] at hc2
    rcases hc2 with rfl | rfl | rfl
    · exact Or.inr (Or.inl rfl)
    · exact Or.inr (Or.inr (hexDigit_mem _ (Nat.div_lt_of_lt_mul (by omega))))
    · exact Or.inr (Or.inr (hexDigit_mem _ (Nat.mod_lt _ (by omega))))

theorem encode_no_eqchar (s : String) : ('=' : Char) ∉ (encodeURIComponent s).data := by
  intro h
  rcases mem_encodeURIComponent h with h | h | h <;> revert h <;> decide

/-- Lower-case hex digit, as produced by `JSON.stringify` unicode escapes. -/
def hexDigitLower (n : Nat) : Char :=
  if n < 10 then Char.ofNat (48 + n) else Char.ofNat (87 + n)

/-- Escaping of a single character inside a `JSON.stringify` string value. -/
def jsonEscapeChar (c : Char) : List Char :=
  if c.toNat = 34 then [Char.ofNat 92, Char.ofNat 34]
  else if c.toNat = 92 then [Char.ofNat 92, Char.ofNat 92]
  else if c.toNat = 8 then [Char.ofNat 92, Char.ofNat 98]
  else if c.toNat = 9 then [Char.ofNat 92, Char.ofNat 116]
  else if c.toNat = 10 then [Char.ofNat 92, Char.ofNat 110]
  else if c.toNat = 12 then [Char.ofNat 92, Char.ofNat 102]
  else if c.toNat = 13 then [Char.ofNat 92, Char.ofNat 114]
  else if c.toNat < 32 then
    [Char.ofNat 92, Char.ofNat 117, Char.ofNat 48, Char.ofNat 48,
     hexDigitLower (c.toNat / 16), hexDigitLower (c.toNat % 16)]
  else [c]

/-- `JSON.stringify` of a string value, double quotes included. -/
def jsonStr (s : String) : String :=
  "\"" ++ String.mk ((s.data.map jsonEscapeChar).flatten) ++ "\""

/-- JS `String.toLowerCase`, character by character (ASCII range). -/
def jsToLowerCase (s : String) : String := String.mk (s.data.map Char.toLower)

/-- JS `String.includes`. -/
def strIncludes (s pat : String) : Bool := scanContains pat.data s.data

/-- One HTTP request as issued by `fetch`: method, full URL, optional body. -/
structure Request where
  method : String
  url : String
  body : Option String
deriving DecidableEq

/-- Outcome of one `fetch` call, as observed by the calling code.  `fetch`
rejects only on a network error; any HTTP response resolves, with `ok`
recording whether the status was 2xx.  The payload is the value produced by
`response.json()`, with `none` standing for a body that fails to parse
(`json()` rejecting). -/
inductive FetchResult (α : Type) where
  | networkError : FetchResult α
  | response (ok : Bool) (body : Option α) : FetchResult α
deriving DecidableEq

/-- Fixed API base address shared by every page. -/
def API_URL : String := "http://localhost:8000"

namespace Applications

/-- The creation-form state (`useState` initial object in `Applications`). -/
structure FormData where
  company : String
  role : String
  status : String
  source : String
  location : String
  salary_range : String
  notes : String
deriving DecidableEq

/-- Initial form values: status `applied`, source `LinkedIn`, all else empty. -/
def initialFormData : FormData :=
  { company := "", role := "", status := "applied", source := "LinkedIn",
    location := "", salary_range := "", notes := "" }

/-- `JSON.stringify(formData)` with keys in insertion order. -/
def stringifyForm (f : FormData) : String :=
  "\x7b\"company\":" ++ jsonStr f.company ++ ",\"role\":" ++ jsonStr f.role ++
  ",\"status\":" ++ jsonStr f.status ++ ",\"source\":" ++ jsonStr f.source ++
  ",\"location\":" ++ jsonStr f.location ++ ",\"salary_range\":" ++ jsonStr f.salary_range ++
  ",\"notes\":" ++ jsonStr f.notes ++ "\x7d"

/-- Component state of the Applications page.  `applications` holds the value
last stored by `setApplications`: `none` is the initial `[]`, `some b` the
payload parsed from response body `b`. -/
structure ApplicationsState where
  applications : Option String
  loading : Bool
  error : Option String
  showForm : Bool
  searchTerm : String
  statusFilter : String
  sourceFilter : String
  formData : FormData
deriving DecidableEq

/-- State on first render: loading, no error, form hidden, empty filters. -/
def appsInitialState : ApplicationsState :=
  { applications := none, loading := true, error := none, showForm := false,
    searchTerm := "", statusFilter := "", sourceFilter := "",
    formData := initialFormData }

/-- URL built by `fetchApplications`: query parameters appended only for
truthy (non-empty) filters; `search` and `source` via `encodeURIComponent`,
`status` verbatim. -/
def fetchApplicationsUrl (searchTerm statusFilter sourceFilter : String) : String :=
  let u0 := API_URL ++ "/applications?"
  let u1 := if searchTerm = "" then u0
            else u0 ++ "search=" ++ encodeURIComponent searchTerm ++ "&"
  let u2 := if statusFilter = "" then u1
            else u1 ++ "status=" ++ statusFilter ++ "&"
  if sourceFilter = "" then u2
  else u2 ++ "source=" ++ encodeURIComponent sourceFilter

/-- The list GET re-issued after mutations, with the current filters. -/
def refetchRequest (s : ApplicationsState) : Request :=
  { method := "GET",
    url := fetchApplicationsUrl s.searchTerm s.statusFilter s.sourceFilter,
    body := none }

/-- `fetchApplications`: sets `loading`, issues the filtered GET; a resolved
response has its body parsed and stored (the `ok` flag is never consulted),
any throw (network error or JSON parse) sets the fixed error string; the
`finally` clause clears `loading`. -/
def fetchApplications (s : ApplicationsState) (res : FetchResult String) :
    ApplicationsState × List Request :=
  match res with
  | .networkError =>
    ({ s with loading := false, error := some "Failed to fetch applications" },
     [refetchRequest s])
  | .response _ none =>
    ({ s with loading := false, error := some "Failed to fetch applications" },
     [refetchRequest s])
  | .response _ (some body) =>
    ({ s with loading := false, applications := some body, error := none },
     [refetchRequest s])

/-- The creation POST, body `JSON.stringify(formData)`. -/
def createRequest (f : FormData) : Request :=
  { method := "POST", url := API_URL ++ "/applications", body := some (stringifyForm f) }

/-- `handleSubmit`: one POST of the current form state; if `response.ok` the
form is hidden, reset to its defaults and `fetchApplications` re-runs (its
synchronous prefix sets `loading`); a non-ok response is ignored; a rejected
fetch sets the creation error string. -/
def handleSubmit (s : ApplicationsState) (res : FetchResult String) :
    ApplicationsState × List Request :=
  match res with
  | .networkError =>
    ({ s with error := some "Failed to create application" }, [createRequest s.formData])
  | .response ok _ =>
    if ok then
      ({ s with showForm := false, formData := initialFormData, loading := true },
       [createRequest s.formData, refetchRequest s])
    else (s, [createRequest s.formData])

/-- Result of the `confirm('Delete this application?')` prompt. -/
inductive ConfirmChoice where
  | accepted : ConfirmChoice
  | declined : ConfirmChoice
deriving DecidableEq

/-- The row-deletion DELETE. -/
def deleteRequest (id : Nat) : Request :=
  { method := "DELETE", url := API_URL ++ "/applications/" ++ toString id, body := none }

/-- `handleDelete`: nothing happens unless the confirm prompt is accepted;
then one DELETE is issued and, whenever it resolves (`ok` is not checked),
`fetchApplications` re-runs; a rejected DELETE sets the deletion error. -/
def handleDelete (s : ApplicationsState) (id : Nat) (choice : ConfirmChoice)
    (res : FetchResult String) : ApplicationsState × List Request :=
  match choice with
  | .declined => (s, [])
  | .accepted =>
    match res with
    | .networkError =>
      ({ s with error := some "Failed to delete application" }, [deleteRequest id])
    | .response _ _ =>
      ({ s with loading := true }, [deleteRequest id, refetchRequest s])

/-- `true` exactly when the fetch resolved with a 2xx status. -/
def respOk : FetchResult String → Bool
  | .response true _ => true
  | _ => false

/-- Values offered by the status `<select>` (empty = All Statuses). -/
def statusOptions : List String :=
  ["", "applied", "phone_screen", "interview", "offer", "rejected"]

end Applications

namespace Applications

/-- The debounce interval of the filter `useEffect` (`setTimeout(..., 300)`). -/
def debounceDelay : Nat := 300

/-- A snapshot of the three filter values captured by a render closure. -/
structure Filters where
  search : String
  status : String
  source : String
deriving DecidableEq

/-- One change of `searchTerm`, `statusFilter` or `sourceFilter`: the instant
it happens and the filter values from then on. -/
structure FilterChange where
  time : Nat
  filters : Filters
deriving DecidableEq

/-- Semantics of the debounce `useEffect` over a time-ordered burst of filter
changes.  Each change re-runs the effect: the cleanup of the previous run
(`clearTimeout`) cancels its pending timer, and a fresh timer is armed for
`debounceDelay` later.  A timer whose deadline arrives before the next change
fires `fetchApplications` with its snapshot of the filters; the result lists
the fetches that fire as (deadline, filter snapshot) pairs. -/
def debouncedFetches : List FilterChange → List (Nat × Filters)
  | [] => []
  | [e] => [(e.time + debounceDelay, e.filters)]
  | e1 :: e2 :: rest =>
    if e2.time < e1.time + debounceDelay then debouncedFetches (e2 :: rest)
    else (e1.time + debounceDelay, e1.filters) :: debouncedFetches (e2 :: rest)

end Applications

namespace Analytics

/-- Outcome of one analytics GET: the promise rejects (network error), the
body fails to parse, or `json()` yields a payload. -/
inductive AnalyticsResult where
  | rejected : AnalyticsResult
  | badJson : AnalyticsResult
  | okJson (v : String) : AnalyticsResult
deriving DecidableEq

/-- Component state of the Analytics page: the five aggregate payloads as
last stored (raw response bodies stand for the parsed JSON), plus the
loading and error flags. -/
structure AnalyticsState where
  dashboard : Option String
  funnel : Option String
  sources : Option String
  statusDist : Option String
  weeklyTrends : Option String
  loading : Bool
  error : Option String
deriving DecidableEq

/-- State on mount: everything `null`, loading. -/
def analyticsInitialState : AnalyticsState :=
  { dashboard := none, funnel := none, sources := none, statusDist := none,
    weeklyTrends := none, loading := true, error := none }

/-- The five GETs issued by `Promise.all`, in the order they are listed. -/
def analyticsRequests : List Request :=
  [{ method := "GET", url := API_URL ++ "/analytics/dashboard", body := none },
   { method := "GET", url := API_URL ++ "/analytics/funnel", body := none },
   { method := "GET", url := API_URL ++ "/analytics/sources", body := none },
   { method := "GET", url := API_URL ++ "/analytics/status-distribution", body := none },
   { method := "GET", url := API_URL ++ "/analytics/weekly-trends", body := none }]

/-- `fetchAllAnalytics`: all five GETs start together; `await Promise.all`
throws before any setter if any fetch rejects.  Otherwise the five `json()`
payloads are stored one after the other, so a parse failure aborts midway
with the earlier setters already applied.  Any throw lands in the single
catch; `finally` clears `loading`. -/
def fetchAllAnalytics (s : AnalyticsState) (r1 r2 r3 r4 r5 : AnalyticsResult) :
    AnalyticsState × List Request :=
  (if r1 = .rejected ∨ r2 = .rejected ∨ r3 = .rejected ∨ r4 = .rejected ∨ r5 = .rejected then
    { s with loading := false, error := some "Failed to fetch analytics" }
  else
    match r1 with
    | .okJson v1 =>
      let s1 := { s with dashboard := some v1 }
      match r2 with
      | .okJson v2 =>
        let s2 := { s1 with funnel := some v2 }
        match r3 with
        | .okJson v3 =>
          let s3 := { s2 with sources := some v3 }
          match r4 with
          | .okJson v4 =>
            let s4 := { s3 with statusDist := some v4 }
            match r5 with
            | .okJson v5 =>
              { s4 with weeklyTrends := some v5, error := none, loading := false }
            | _ => { s4 with loading := false, error := some "Failed to fetch analytics" }
          | _ => { s3 with loading := false, error := some "Failed to fetch analytics" }
        | _ => { s2 with loading := false, error := some "Failed to fetch analytics" }
      | _ => { s1 with loading := false, error := some "Failed to fetch analytics" }
    | _ => { s with loading := false, error := some "Failed to fetch analytics" },
   analyticsRequests)

/-- What the Analytics component renders: the loading guard, the error
guard, or the full data view of all five sections. -/
inductive AnalyticsView where
  | loadingView : AnalyticsView
  | errorView (msg : String) : AnalyticsView
  | dataView (dashboard funnel sources statusDist weeklyTrends : Option String) :
      AnalyticsView
deriving DecidableEq

/-- The early-return chain of the component body. -/
def renderAnalytics (s : AnalyticsState) : AnalyticsView :=
  if s.loading then .loadingView
  else
    match s.error with
    | some m => .errorView m
    | none => .dataView s.dashboard s.funnel s.sources s.statusDist s.weeklyTrends

end Analytics

/-- Fields of one company rollup consumed by the Companies pages.  The
numeric rates are integers here; nothing below inspects them. -/
structure Company where
  company_name : String
  application_count : Nat
  response_rate : Nat
  interview_rate : Nat
  offer_rate : Nat
  status : Option String
deriving DecidableEq

/-- GET of the companies list, shared by both Companies variants. -/
def companiesListRequest : Request :=
  { method := "GET", url := API_URL ++ "/companies", body := none }

/-- `JSON.stringify({ status })`. -/
def stringifyStatus (status : String) : String :=
  "\x7b\"status\":" ++ jsonStr status ++ "\x7d"

/-- The manual-status PUT, identical in both Companies variants. -/
def companyStatusPut (name status : String) : Request :=
  { method := "PUT", url := API_URL ++ "/companies/" ++ encodeURIComponent name ++ "/status",
    body := some (stringifyStatus status) }

namespace Companies

/-- Component state of the Companies page (search-bar variant). -/
structure CompaniesState where
  companies : List Company
  selectedCompany : Option String
  companyDetails : Option String
  loading : Bool
  error : Option String
  searchTerm : String
deriving DecidableEq

/-- State on mount. -/
def companiesInitialState : CompaniesState :=
  { companies := [], selectedCompany := none, companyDetails := none,
    loading := true, error := none, searchTerm := "" }

/-- Outcome of the companies-list fetch: a throw anywhere in the try block,
or a parsed payload whose `companies` field (defaulted by `|| []`) is `cs`. -/
inductive CompaniesListResult where
  | failure : CompaniesListResult
  | success (cs : List Company) : CompaniesListResult
deriving DecidableEq

/-- `fetchCompanies`: sets `loading`, issues the list GET, stores
`data.companies || []` on success, fixed error string on any throw,
`finally` clears `loading`. -/
def fetchCompanies (s : CompaniesState) (res : CompaniesListResult) :
    CompaniesState × List Request :=
  match res with
  | .failure =>
    ({ s with loading := false, error := some "Failed to fetch companies" },
     [companiesListRequest])
  | .success cs =>
    ({ s with loading := false, companies := cs, error := none },
     [companiesListRequest])

/-- GET of one company rollup detail (`/companies/{name}/stats`). -/
def statsRequest (name : String) : Request :=
  { method := "GET", url := API_URL ++ "/companies/" ++ encodeURIComponent name ++ "/stats",
    body := none }

/-- `fetchCompanyDetails` (the `onClick` handler of a company row): one GET;
on a parsed body the details are stored and the company becomes selected;
any throw sets the fixed detail error string. -/
def fetchCompanyDetails (s : CompaniesState) (name : String) (res : FetchResult String) :
    CompaniesState × List Request :=
  match res with
  | .response _ (some body) =>
    ({ s with companyDetails := some body, selectedCompany := some name },
     [statsRequest name])
  | _ =>
    ({ s with error := some "Failed to fetch company details" }, [statsRequest name])

/-- `updateCompanyStatus`: the PUT; once it resolves (`ok` unchecked),
`fetchCompanies` re-runs (its synchronous prefix sets `loading`) and, if the
updated company is the selected one, `fetchCompanyDetails` re-runs; a
rejected PUT only logs to the console — no state changes at all. -/
def updateCompanyStatus (s : CompaniesState) (name status : String)
    (res : FetchResult String) : CompaniesState × List Request :=
  match res with
  | .networkError => (s, [companyStatusPut name status])
  | .response _ _ =>
    ({ s with loading := true },
     [companyStatusPut name status, companiesListRequest] ++
       (if s.selectedCompany = some name then [statsRequest name] else []))

/-- The `onChange` handler of the search box: `setSearchTerm` only. -/
def setSearchTerm (s : CompaniesState) (t : String) : CompaniesState × List Request :=
  ({ s with searchTerm := t }, [])

/-- The render-time filter: companies whose lower-cased name includes the
lower-cased search term. -/
def filteredCompanies (companies : List Company) (searchTerm : String) : List Company :=
  companies.filter fun company =>
    strIncludes (jsToLowerCase company.company_name) (jsToLowerCase searchTerm)

/-- The list the component actually maps over. -/
def displayedCompanies (s : CompaniesState) : List Company :=
  filteredCompanies s.companies s.searchTerm

end Companies

namespace CompaniesNotes

/-- Parsed payload of the `/details` response; the code reads its `notes`
field (`details.notes || ''`), the rest is carried opaquely. -/
structure DetailsPayload where
  notes : Option String
  rest : String
deriving DecidableEq

/-- Component state of the Companies page (notes variant). -/
structure CompaniesState where
  companies : List Company
  selectedCompany : Option String
  companyDetails : Option (String × DetailsPayload)
  loading : Bool
  error : Option String
  notes : String
  showNotesForm : Bool
deriving DecidableEq

/-- GET of one company (`/companies/{name}`). -/
def companyRequest (name : String) : Request :=
  { method := "GET", url := API_URL ++ "/companies/" ++ encodeURIComponent name, body := none }

/-- GET of one company's details (`/companies/{name}/details`). -/
def detailsRequest (name : String) : Request :=
  { method := "GET", url := API_URL ++ "/companies/" ++ encodeURIComponent name ++ "/details",
    body := none }

/-- `fetchCompanyDetails` (notes variant): two GETs via `Promise.all`; when
both resolve with parsed bodies, the merged object `{...apps, ...details}`
(modelled as the pair) is stored, `notes` is set from `details.notes || ''`
and the company becomes selected; any throw sets the detail error string. -/
def fetchCompanyDetails (s : CompaniesState) (name : String)
    (rApps : FetchResult String) (rDetails : FetchResult DetailsPayload) :
    CompaniesState × List Request :=
  (match rApps, rDetails with
   | .response _ (some apps), .response _ (some details) =>
     { s with companyDetails := some (apps, details), notes := details.notes.getD "",
              selectedCompany := some name }
   | _, _ => { s with error := some "Failed to fetch company details" },
   [companyRequest name, detailsRequest name])

/-- `updateStatus` (notes variant): PUT for the selected company (JS
stringifies a `null` selection as "null"); once it resolves,
`fetchCompanyDetails` and `fetchCompanies` re-run; a rejected PUT sets the
status-update error string. -/
def updateStatus (s : CompaniesState) (status : String) (res : FetchResult String) :
    CompaniesState × List Request :=
  match res with
  | .networkError =>
    ({ s with error := some "Failed to update status" },
     [companyStatusPut (s.selectedCompany.getD "null") status])
  | .response _ _ =>
    ({ s with loading := true },
     [companyStatusPut (s.selectedCompany.getD "null") status,
      companyRequest (s.selectedCompany.getD "null"),
      detailsRequest (s.selectedCompany.getD "null"),
      companiesListRequest])

end CompaniesNotes

namespace Applications

/-- Strictly increasing event times make an event list time-ordered. -/
def TimeOrdered (es : List FilterChange) : Prop :=
  List.Pairwise (fun a b => a.time < b.time) es

instance (es : List FilterChange) : Decidable (TimeOrdered es) :=
  inferInstanceAs (Decidable (List.Pairwise _ es))

theorem timeOrdered_tail {e : FilterChange} {es : List FilterChange}
    (h : TimeOrdered (e :: es)) : TimeOrdered es := (List.pairwise_cons.1 h).2

theorem timeOrdered_head {e : FilterChange} {es : List FilterChange}
    (h : TimeOrdered (e :: es)) : ∀ x ∈ es, e.time < x.time := (List.pairwise_cons.1 h).1

theorem timeOrdered_time_inj {es : List FilterChange} (h : TimeOrdered es) :
    ∀ a ∈ es, ∀ b ∈ es, a.time = b.time → a = b := by
  induction es with
  | nil => intro a ha; exact absurd ha (List.not_mem_nil a)
  | cons e t ih =>
    intro a ha b hb heq
    rcases List.mem_cons.1 ha with rfl | ha' <;> rcases List.mem_cons.1 hb with rfl | hb'
    · rfl
    · exact absurd heq (Nat.ne_of_lt (timeOrdered_head h b hb'))
    · exact absurd heq.symm (Nat.ne_of_lt (timeOrdered_head h a ha'))
    · exact ih (timeOrdered_tail h) a ha' b hb' heq

/-- Every fetch that fires stems from a change exactly `debounceDelay`
earlier, carries the filters of that change, and that change is followed by
no other change inside its debounce window. -/
theorem debouncedFetches_sound {es : List FilterChange} (hs : TimeOrdered es)
    {d : Nat} {f : Filters} (hm : (d, f) ∈ debouncedFetches es) :
    ∃ e ∈ es, e.time + debounceDelay = d ∧ e.filters = f ∧
      ∀ e2 ∈ es, e.time < e2.time → e.time + debounceDelay ≤ e2.time := by
  induction es with
  | nil => simp [debouncedFetches] at hm
  | cons e1 t ih =>
    cases t with
    | nil =>
      simp only [debouncedFetches, List.mem_singleton, Prod.mk.injEq] at hm
      refine ⟨e1, List.mem_singleton_self e1, hm.1.symm, hm.2.symm, ?_⟩
      intro e2 he2 hlt
      rcases List.mem_singleton.1 he2 with rfl
      exact absurd hlt (lt_irrefl _)
    | cons e2 rest =>
      by_cases hcancel : e2.time < e1.time + debounceDelay
      · rw [show debouncedFetches (e1 :: e2 :: rest) = debouncedFetches (e2 :: rest) by
          simp [debouncedFetches, if_pos hcancel]] at hm
        rcases ih (timeOrdered_tail hs) hm with ⟨e, he, hd, hf, hno⟩
        refine ⟨e, List.mem_cons_of_mem _ he, hd, hf, ?_⟩
        intro x hx hlt
        rcases List.mem_cons.1 hx with rfl | hx'
        · exact absurd (lt_trans (timeOrdered_head hs e he) hlt) (lt_irrefl _)
        · exact hno x hx' hlt
      · rw [show debouncedFetches (e1 :: e2 :: rest)
            = (e1.time + debounceDelay, e1.filters) :: debouncedFetches (e2 :: rest) by
          simp [debouncedFetches, if_neg hcancel]] at hm
        rcases List.mem_cons.1 hm with hm' | hm'
        · cases hm'
          refine ⟨e1, List.mem_cons_self _ _, rfl, rfl, ?_⟩
          intro x hx hlt
          rcases List.mem_cons.1 hx with rfl | hx'
          · exact absurd hlt (lt_irrefl _)
          · rcases List.mem_cons.1 hx' with rfl | hx''
            · exact Nat.le_of_not_lt hcancel
            · exact le_trans (Nat.le_of_not_lt hcancel)
                (le_of_lt (timeOrdered_head (timeOrdered_tail hs) x hx''))
        · rcases ih (timeOrdered_tail hs) hm' with ⟨e, he, hd, hf, hno⟩
          refine ⟨e, List.mem_cons_of_mem _ he, hd, hf, ?_⟩
          intro x hx hlt
          rcases List.mem_cons.1 hx with rfl | hx'
          · exact absurd (lt_trans (timeOrdered_head hs e he) hlt) (lt_irrefl _)
          · exact hno x hx' hlt

/-- The fetch scheduled by the last change always fires. -/
theorem debouncedFetches_last {es : List FilterChange} (h : es ≠ []) :
    ((es.getLast h).time + debounceDelay, (es.getLast h).filters) ∈ debouncedFetches es := by
  induction es with
  | nil => exact absurd rfl h
  | cons e1 t ih =>
    cases t with
    | nil => simp [debouncedFetches, List.getLast]
    | cons e2 rest =>
      have hne : e2 :: rest ≠ [] := List.cons_ne_nil _ _
      have hlast : (e1 :: e2 :: rest).getLast h = (e2 :: rest).getLast hne :=
        List.getLast_cons hne
      rw [hlast]
      by_cases hcancel : e2.time < e1.time + debounceDelay
      · rw [show debouncedFetches (e1 :: e2 :: rest) = debouncedFetches (e2 :: rest) by
          simp [debouncedFetches, if_pos hcancel]]
        exact ih hne
      · rw [show debouncedFetches (e1 :: e2 :: rest)
            = (e1.time + debounceDelay, e1.filters) :: debouncedFetches (e2 :: rest) by
          simp [debouncedFetches, if_neg hcancel]]
        exact List.mem_cons_of_mem _ (ih hne)

end Applications

theorem strData_append (a b : String) : (a ++ b).data = a.data ++ b.data := by
  cases a; cases b; rfl

theorem occurs_mono_right {a b s : List Char} (h : Occurs (a ++ b) s) : Occurs a s := by
  rcases h with ⟨l, r, rfl⟩
  exact ⟨l, b ++ r, by simp⟩

theorem searchEq_data : ("search=").data = "search".data ++ ['='] := rfl

theorem statusEq_data : ("status=").data = "status".data ++ ['='] := rfl

theorem sourceEq_data : ("source=").data = "source".data ++ ['='] := rfl

theorem amp_data : ("&").data = ['&'] := rfl

namespace Applications

/-- Characters of the fixed part of the applications URL. -/
def qBase : List Char := (API_URL ++ "/applications?").data

/-- Characters appended for a non-empty search term. -/
def segSearch (se : String) : List Char :=
  if se = "" then [] else "search".data ++ '=' :: ((encodeURIComponent se).data ++ ['&'])

/-- Characters appended for a non-empty status filter (valued verbatim). -/
def segStatus (st : String) : List Char :=
  if st = "" then [] else "status".data ++ '=' :: (st.data ++ ['&'])

/-- Characters appended for a non-empty source filter. -/
def segSource (so : String) : List Char :=
  if so = "" then [] else "source".data ++ '=' :: (encodeURIComponent so).data

theorem url_data (se st so : String) :
    (fetchApplicationsUrl se st so).data
      = qBase ++ segSearch se ++ segStatus st ++ segSource so := by
  by_cases h1 : se = "" <;> by_cases h2 : st = "" <;> by_cases h3 : so = "" <;>
    simp [fetchApplicationsUrl, segSearch, segStatus, segSource, qBase,
      h1, h2, h3, strData_append, searchEq_data, statusEq_data, sourceEq_data,
      amp_data, List.append_assoc]

theorem statusOptions_no_eqchar : ∀ st ∈ statusOptions, ('=' : Char) ∉ st.data := by
  decide

theorem url_no_search {st so : String} (hst : ('=' : Char) ∉ st.data) :
    ¬ containsStr (fetchApplicationsUrl "" st so) "search=" := by
  intro h
  rw [containsStr, searchEq_data, url_data] at h
  by_cases h2 : st = "" <;> by_cases h3 : so = ""
  · rw [show qBase ++ segSearch "" ++ segStatus st ++ segSource so = qBase by
      simp [segSearch, segStatus, segSource, h2, h3]] at h
    exact not_occurs_of_not_mem (by decide) h
  · rw [show qBase ++ segSearch "" ++ segStatus st ++ segSource so
        = (qBase ++ "source".data) ++ '=' :: (encodeURIComponent so).data by
      simp [segSearch, segStatus, segSource, h2, h3, List.append_assoc]] at h
    have hq := occurs_single_mark (by decide) (encode_no_eqchar so) h
    exact absurd (sfx_len_eq hq (sfxP_append _ qBase) (by decide)) (by decide)
  · rw [show qBase ++ segSearch "" ++ segStatus st ++ segSource so
        = (qBase ++ "status".data) ++ '=' :: (st.data ++ ['&']) by
      simp [segSearch, segStatus, segSource, h2, h3, List.append_assoc]] at h
    have hu2 : ('=' : Char) ∉ st.data ++ ['&'] := by
      intro hx
      rcases List.mem_append.1 hx with hx | hx
      · exact hst hx
      · revert hx; decide
    have hq := occurs_single_mark (by decide) hu2 h
    exact absurd (sfx_len_eq hq (sfxP_append _ qBase) (by decide)) (by decide)
  · rw [show qBase ++ segSearch "" ++ segStatus st ++ segSource so
        = (qBase ++ "status".data)
            ++ '=' :: (st.data ++ '&' :: "source".data) ++ '=' :: (encodeURIComponent so).data by
      simp [segSearch, segStatus, segSource, h2, h3, List.append_assoc]] at h
    have hu2 : ('=' : Char) ∉ st.data ++ '&' :: "source".data := by
      intro hx
      rcases List.mem_append.1 hx with hx | hx
      · exact hst hx
      · revert hx; decide
    rcases occurs_double_mark (by decide) hu2 (encode_no_eqchar so) h with hq | hq
    · exact absurd (sfx_len_eq hq (sfxP_append _ qBase) (by decide)) (by decide)
    · have hsrc : sfxP "source".data ((qBase ++ "status".data) ++ '=' :: (st.data ++ '&' :: "source".data)) :=
        ⟨(qBase ++ "status".data) ++ '=' :: (st.data ++ ['&']), by simp⟩
      exact absurd (sfx_len_eq hq hsrc (by decide)) (by decide)

end Applications

namespace Applications

theorem url_no_status {se so : String} :
    ¬ containsStr (fetchApplicationsUrl se "" so) "status=" := by
  intro h
  rw [containsStr, statusEq_data, url_data] at h
  by_cases h1 : se = "" <;> by_cases h3 : so = ""
  · rw [show qBase ++ segSearch se ++ segStatus "" ++ segSource so = qBase by
      simp [segSearch, segStatus, segSource, h1, h3]] at h
    exact not_occurs_of_not_mem (by decide) h
  · rw [show qBase ++ segSearch se ++ segStatus "" ++ segSource so
        = (qBase ++ "source".data) ++ '=' :: (encodeURIComponent so).data by
      simp [segSearch, segStatus, segSource, h1, h3, List.append_assoc]] at h
    have hq := occurs_single_mark (by decide) (encode_no_eqchar so) h
    exact absurd (sfx_len_eq hq (sfxP_append _ qBase) (by decide)) (by decide)
  · rw [show qBase ++ segSearch se ++ segStatus "" ++ segSource so
        = (qBase ++ "search".data) ++ '=' :: ((encodeURIComponent se).data ++ ['&']) by
      simp [segSearch, segStatus, segSource, h1, h3, List.append_assoc]] at h
    have hu2 : ('=' : Char) ∉ (encodeURIComponent se).data ++ ['&'] := by
      intro hx
      rcases List.mem_append.1 hx with hx | hx
      · exact encode_no_eqchar se hx
      · revert hx; decide
    have hq := occurs_single_mark (by decide) hu2 h
    exact absurd (sfx_len_eq hq (sfxP_append _ qBase) (by decide)) (by decide)
  · rw [show qBase ++ segSearch se ++ segStatus "" ++ segSource so
        = (qBase ++ "search".data)
            ++ '=' :: ((encodeURIComponent se).data ++ '&' :: "source".data)
            ++ '=' :: (encodeURIComponent so).data by
      simp [segSearch, segStatus, segSource, h1, h3, List.append_assoc]] at h
    have hu2 : ('=' : Char) ∉ (encodeURIComponent se).data ++ '&' :: "source".data := by
      intro hx
      rcases List.mem_append.1 hx with hx | hx
      · exact encode_no_eqchar se hx
      · revert hx; decide
    rcases occurs_double_mark (by decide) hu2 (encode_no_eqchar so) h with hq | hq
    · exact absurd (sfx_len_eq hq (sfxP_append _ qBase) (by decide)) (by decide)
    · have hsrc : sfxP "source".data
          ((qBase ++ "search".data)
            ++ '=' :: ((encodeURIComponent se).data ++ '&' :: "source".data)) :=
        ⟨(qBase ++ "search".data) ++ '=' :: ((encodeURIComponent se).data ++ ['&']), by simp⟩
      exact absurd (sfx_len_eq hq hsrc (by decide)) (by decide)

theorem url_no_source {se st : String} (hst : ('=' : Char) ∉ st.data) :
    ¬ containsStr (fetchApplicationsUrl se st "") "source=" := by
  intro h
  rw [containsStr, sourceEq_data, url_data] at h
  by_cases h1 : se = "" <;> by_cases h2 : st = ""
  · rw [show qBase ++ segSearch se ++ segStatus st ++ segSource "" = qBase by
      simp [segSearch, segStatus, segSource, h1, h2]] at h
    exact not_occurs_of_not_mem (by decide) h
  · rw [show qBase ++ segSearch se ++ segStatus st ++ segSource ""
        = (qBase ++ "status".data) ++ '=' :: (st.data ++ ['&']) by
      simp [segSearch, segStatus, segSource, h1, h2, List.append_assoc]] at h
    have hu2 : ('=' : Char) ∉ st.data ++ ['&'] := by
      intro hx
      rcases List.mem_append.1 hx with hx | hx
      · exact hst hx
      · revert hx; decide
    have hq := occurs_single_mark (by decide) hu2 h
    exact absurd (sfx_len_eq hq (sfxP_append _ qBase) (by decide)) (by decide)
  · rw [show qBase ++ segSearch se ++ segStatus st ++ segSource ""
        = (qBase ++ "search".data) ++ '=' :: ((encodeURIComponent se).data ++ ['&']) by
      simp [segSearch, segStatus, segSource, h1, h2, List.append_assoc]] at h
    have hu2 : ('=' : Char) ∉ (encodeURIComponent se).data ++ ['&'] := by
      intro hx
      rcases List.mem_append.1 hx with hx | hx
      · exact encode_no_eqchar se hx
      · revert hx; decide
    have hq := occurs_single_mark (by decide) hu2 h
    exact absurd (sfx_len_eq hq (sfxP_append _ qBase) (by decide)) (by decide)
  · rw [show qBase ++ segSearch se ++ segStatus st ++ segSource ""
        = (qBase ++ "search".data)
            ++ '=' :: ((encodeURIComponent se).data ++ '&' :: "status".data)
            ++ '=' :: (st.data ++ ['&']) by
      simp [segSearch, segStatus, segSource, h1, h2, List.append_assoc]] at h
    have hu2 : ('=' : Char) ∉ (encodeURIComponent se).data ++ '&' :: "status".data := by
      intro hx
      rcases List.mem_append.1 hx with hx | hx
      · exact encode_no_eqchar se hx
      · revert hx; decide
    have hu3 : ('=' : Char) ∉ st.data ++ ['&'] := by
      intro hx
      rcases List.mem_append.1 hx with hx | hx
      · exact hst hx
      · revert hx; decide
    rcases occurs_double_mark (by decide) hu2 hu3 h with hq | hq
    · exact absurd (sfx_len_eq hq (sfxP_append _ qBase) (by decide)) (by decide)
    · have hstx : sfxP "status".data
          ((qBase ++ "search".data)
            ++ '=' :: ((encodeURIComponent se).data ++ '&' :: "status".data)) :=
        ⟨(qBase ++ "search".data) ++ '=' :: ((encodeURIComponent se).data ++ ['&']), by simp⟩
      exact absurd (sfx_len_eq hq hstx (by decide)) (by decide)

theorem url_has_search {se : String} (st so : String) (hse : se ≠ "") :
    containsStr (fetchApplicationsUrl se st so) ("search=" ++ encodeURIComponent se) := by
  rw [containsStr, strData_append]
  exact ⟨qBase, ['&'] ++ segStatus st ++ segSource so, by
    simp [url_data, segSearch, hse, searchEq_data, List.append_assoc]⟩

theorem url_has_status {st : String} (se so : String) (hst : st ≠ "") :
    containsStr (fetchApplicationsUrl se st so) ("status=" ++ st) := by
  rw [containsStr, strData_append]
  exact ⟨qBase ++ segSearch se, ['&'] ++ segSource so, by
    simp [url_data, segStatus, hst, statusEq_data, List.append_assoc]⟩

theorem url_has_source {so : String} (se st : String) (hso : so ≠ "") :
    containsStr (fetchApplicationsUrl se st so) ("source=" ++ encodeURIComponent so) := by
  rw [containsStr, strData_append]
  exact ⟨qBase ++ segSearch se ++ segStatus st, [], by
    simp [url_data, segSource, hso, sourceEq_data, List.append_assoc]⟩

theorem encode_statusOptions : ∀ st ∈ statusOptions, encodeURIComponent st = st := by
  decide

end Applications

theorem containsStr_mono {s a b : String} (h : containsStr s (a ++ b)) : containsStr s a := by
  rw [containsStr, strData_append] at h
  exact occurs_mono_right h

/-! ### Claims -/

/-- C1: every change of the search text, status filter or source filter
schedules a fetch `debounceDelay` (300 ms) later; in particular the last
change of a burst always fires.  A change arriving inside the pending window
cancels that fetch.  Every fetch that fires carries the filter snapshot of
the latest change before it, with no further change inside its window, and
two distinct fetches are at least one debounce window apart, so at most one
fetch fires per window and it is the latest scheduled one. -/
theorem debounce_cancel_and_latest_wins (es : List Applications.FilterChange)
    (hs : Applications.TimeOrdered es) :
    (∀ h : es ≠ [],
        ((es.getLast h).time + Applications.debounceDelay, (es.getLast h).filters)
          ∈ Applications.debouncedFetches es) ∧
    (∀ e ∈ es, ∀ e2 ∈ es, e.time < e2.time → e2.time < e.time + Applications.debounceDelay →
        ∀ f, (e.time + Applications.debounceDelay, f) ∉ Applications.debouncedFetches es) ∧
    (∀ d f, (d, f) ∈ Applications.debouncedFetches es →
        ∃ e ∈ es, e.time + Applications.debounceDelay = d ∧ e.filters = f ∧
          ∀ e2 ∈ es, e.time < e2.time → e.time + Applications.debounceDelay ≤ e2.time) ∧
    (∀ d1 f1 d2 f2, (d1, f1) ∈ Applications.debouncedFetches es →
        (d2, f2) ∈ Applications.debouncedFetches es → d1 < d2 →
        d1 + Applications.debounceDelay ≤ d2) := by
  refine ⟨fun h => Applications.debouncedFetches_last h, ?_, ?_, ?_⟩
  · intro e he e2 he2 hlt hwin f hmem
    rcases Applications.debouncedFetches_sound hs hmem with ⟨e0, he0, hd, _, hno⟩
    have ht : e0.time = e.time := Nat.add_right_cancel hd
    have he0e : e0 = e := Applications.timeOrdered_time_inj hs e0 he0 e he ht
    subst he0e
    exact absurd (hno e2 he2 hlt) (by omega)
  · intro d f hm
    exact Applications.debouncedFetches_sound hs hm
  · intro d1 f1 d2 f2 h1 h2 hlt
    rcases Applications.debouncedFetches_sound hs h1 with ⟨a, ha, hda, _, hnoa⟩
    rcases Applications.debouncedFetches_sound hs h2 with ⟨b, hb, hdb, _, _⟩
    have hab : a.time < b.time := by omega
    have := hnoa b hb hab
    omega

/-- Concrete burst for the C1 witness: changes at 0, 100, 500 ms. -/
def demoChanges : List Applications.FilterChange :=
  [{ time := 0, filters := { search := "a", status := "", source := "" } },
   { time := 100, filters := { search := "ab", status := "", source := "" } },
   { time := 500, filters := { search := "ab", status := "applied", source := "" } }]

/-- C1 witness: the latest change of the concrete burst fires at 800 ms. -/
theorem debounce_cancel_and_latest_wins_witness :
    Applications.TimeOrdered demoChanges ∧
    (800, { search := "ab", status := "applied", source := "" })
      ∈ Applications.debouncedFetches demoChanges :=
  ⟨by decide,
   (debounce_cancel_and_latest_wins demoChanges (by decide)).1 (by decide)⟩

/-- C2 (counterexample): with the status filter `"a b"` the URL carries a
status parameter, but the value stands verbatim — the percent-encoded form
`status=a%20b` demanded by the claim is absent, because `fetchApplications`
runs only `search` and `source` through `encodeURIComponent`. -/
theorem fetchApplicationsUrl_status_not_encoded :
    Applications.fetchApplicationsUrl "" "a b" ""
      = "http://localhost:8000/applications?status=a b&" ∧
    encodeURIComponent "a b" = "a%20b" ∧
    containsStr (Applications.fetchApplicationsUrl "" "a b" "") "status=" ∧
    ¬ containsStr (Applications.fetchApplicationsUrl "" "a b" "")
        ("status=" ++ encodeURIComponent "a b") := by
  refine ⟨by decide, by decide, by decide, by decide⟩

/-- C2 (amended): a query parameter appears in the URL exactly when its
filter is non-empty; the search and source values appear percent-encoded;
and under the restriction that the status filter is one of the values the
status `<select>` offers — the only values the page can hold — the status
value also appears percent-encoded, because on those values the encoding is
the identity. -/
theorem fetchApplicationsUrl_params (se st so : String)
    (hst : st ∈ Applications.statusOptions) :
    (containsStr (Applications.fetchApplicationsUrl se st so) "search=" ↔ se ≠ "") ∧
    (containsStr (Applications.fetchApplicationsUrl se st so) "status=" ↔ st ≠ "") ∧
    (containsStr (Applications.fetchApplicationsUrl se st so) "source=" ↔ so ≠ "") ∧
    (se ≠ "" → containsStr (Applications.fetchApplicationsUrl se st so)
        ("search=" ++ encodeURIComponent se)) ∧
    (st ≠ "" → containsStr (Applications.fetchApplicationsUrl se st so)
        ("status=" ++ encodeURIComponent st)) ∧
    (so ≠ "" → containsStr (Applications.fetchApplicationsUrl se st so)
        ("source=" ++ encodeURIComponent so)) := by
  have hstE : ('=' : Char) ∉ st.data := Applications.statusOptions_no_eqchar st hst
  have hencst : encodeURIComponent st = st := Applications.encode_statusOptions st hst
  refine ⟨⟨?_, ?_⟩, ⟨?_, ?_⟩, ⟨?_, ?_⟩, ?_, ?_, ?_⟩
  · intro h hse
    subst hse
    exact Applications.url_no_search hstE h
  · intro hse
    exact containsStr_mono (Applications.url_has_search st so hse)
  · intro h hstE'
    subst hstE'
    exact Applications.url_no_status h
  · intro hstN
    exact containsStr_mono (Applications.url_has_status se so hstN)
  · intro h hso
    subst hso
    exact Applications.url_no_source hstE h
  · intro hso
    exact containsStr_mono (Applications.url_has_source se st hso)
  · intro hse
    exact Applications.url_has_search st so hse
  · intro hstN
    rw [hencst]
    exact Applications.url_has_status se so hstN
  · intro hso
    exact Applications.url_has_source se st hso

/-- C2 witness: at search `"a b"`, status `"applied"`, source
`"Company Website"` the status value appears percent-encoded. -/
theorem fetchApplicationsUrl_params_witness :
    containsStr (Applications.fetchApplicationsUrl "a b" "applied" "Company Website")
      ("status=" ++ encodeURIComponent "applied") :=
  (fetchApplicationsUrl_params "a b" "applied" "Company Website"
    (by decide)).2.2.2.2.1 (by decide)

/-- C3: the Analytics mount handler always issues the five aggregate GETs
together; if any of the five rejects, the page renders exactly the generic
`Failed to fetch analytics` error view; and the full data view is rendered
only when all five resolve with parsed payloads, in which case it shows all
five payloads — never partial data. -/
theorem analytics_all_or_nothing (r1 r2 r3 r4 r5 : Analytics.AnalyticsResult) :
    ((Analytics.fetchAllAnalytics Analytics.analyticsInitialState r1 r2 r3 r4 r5).2
        = Analytics.analyticsRequests) ∧
    ((r1 = .rejected ∨ r2 = .rejected ∨ r3 = .rejected ∨ r4 = .rejected ∨ r5 = .rejected) →
      Analytics.renderAnalytics
          (Analytics.fetchAllAnalytics Analytics.analyticsInitialState r1 r2 r3 r4 r5).1
        = .errorView "Failed to fetch analytics") ∧
    (∀ d f so st w,
      Analytics.renderAnalytics
          (Analytics.fetchAllAnalytics Analytics.analyticsInitialState r1 r2 r3 r4 r5).1
        = .dataView d f so st w →
      ∃ v1 v2 v3 v4 v5, r1 = .okJson v1 ∧ r2 = .okJson v2 ∧ r3 = .okJson v3 ∧
        r4 = .okJson v4 ∧ r5 = .okJson v5 ∧ d = some v1 ∧ f = some v2 ∧ so = some v3 ∧
        st = some v4 ∧ w = some v5) := by
  refine ⟨rfl, ?_, ?_⟩
  · intro hrej
    simp only [Analytics.fetchAllAnalytics, if_pos hrej]
    rfl
  · intro d f so st w h
    by_cases hrej : r1 = .rejected ∨ r2 = .rejected ∨ r3 = .rejected ∨ r4 = .rejected ∨
        r5 = .rejected
    · simp only [Analytics.fetchAllAnalytics, if_pos hrej] at h
      simp [Analytics.renderAnalytics] at h
    · simp only [Analytics.fetchAllAnalytics, if_neg hrej] at h
      rcases r1 with _ | _ | v1
      · exact absurd (Or.inl rfl) hrej
      · simp [Analytics.renderAnalytics] at h
      · rcases r2 with _ | _ | v2
        · exact absurd (Or.inr (Or.inl rfl)) hrej
        · simp [Analytics.renderAnalytics] at h
        · rcases r3 with _ | _ | v3
          · exact absurd (Or.inr (Or.inr (Or.inl rfl))) hrej
          · simp [Analytics.renderAnalytics] at h
          · rcases r4 with _ | _ | v4
            · exact absurd (Or.inr (Or.inr (Or.inr (Or.inl rfl)))) hrej
            · simp [Analytics.renderAnalytics] at h
            · rcases r5 with _ | _ | v5
              · exact absurd (Or.inr (Or.inr (Or.inr (Or.inr rfl)))) hrej
              · simp [Analytics.renderAnalytics] at h
              · simp [Analytics.renderAnalytics] at h
                obtain ⟨hd, hf, hso, hst, hw⟩ := h
                exact ⟨v1, v2, v3, v4, v5, rfl, rfl, rfl, rfl, rfl,
                  hd.symm, hf.symm, hso.symm, hst.symm, hw.symm⟩

/-- C3 witness: with the dashboard request rejected and the other four
succeeding, the page renders the generic error view. -/
theorem analytics_all_or_nothing_witness :
    Analytics.renderAnalytics
        (Analytics.fetchAllAnalytics Analytics.analyticsInitialState .rejected
          (.okJson "a") (.okJson "b") (.okJson "c") (.okJson "d")).1
      = .errorView "Failed to fetch analytics" :=
  (analytics_all_or_nothing .rejected (.okJson "a") (.okJson "b") (.okJson "c")
    (.okJson "d")).2.1 (Or.inl rfl)

/-- C4 (counterexample): `fetch` does not throw on a non-2xx status, so a
failed HTTP response whose body still parses is treated as success by
`fetchApplications`: no error string is set and the body is stored as the
applications list — the claim that a non-2xx status yields the fixed error
string is false. -/
theorem nonOk_response_not_collapsed :
    (Applications.fetchApplications Applications.appsInitialState
        (.response false (some "[]"))).1.error = none ∧
    (Applications.fetchApplications Applications.appsInitialState
        (.response false (some "[]"))).1.applications = some "[]" :=
  ⟨rfl, rfl⟩

/-- C4 (amended): network errors and JSON-parse failures produce the fixed
per-page error string, but a non-2xx HTTP response does not throw and never
does: `fetchApplications` stores a parseable body as data with no error,
`handleSubmit` ignores a non-ok response entirely, and on the Companies page
the list/detail fetches show their fixed strings only on a throw while a
rejected status PUT changes no state at all (console log only). -/
theorem failure_modes_per_operation :
    (∀ s, (Applications.fetchApplications s .networkError).1.error
        = some "Failed to fetch applications") ∧
    (∀ s ok, (Applications.fetchApplications s (.response ok none)).1.error
        = some "Failed to fetch applications") ∧
    (∀ s ok b, (Applications.fetchApplications s (.response ok (some b))).1.error = none ∧
        (Applications.fetchApplications s (.response ok (some b))).1.applications = some b) ∧
    (∀ s b, Applications.handleSubmit s (.response false b)
        = (s, [Applications.createRequest s.formData])) ∧
    (∀ s, (Companies.fetchCompanies s .failure).1.error
        = some "Failed to fetch companies") ∧
    (∀ s name, (Companies.fetchCompanyDetails s name .networkError).1.error
        = some "Failed to fetch company details") ∧
    (∀ s name ok, (Companies.fetchCompanyDetails s name (.response ok none)).1.error
        = some "Failed to fetch company details") ∧
    (∀ s name status,
        (Companies.updateCompanyStatus s name status .networkError).1 = s) :=
  ⟨fun _ => rfl, fun _ _ => rfl, fun _ _ _ => ⟨rfl, rfl⟩, fun _ _ => rfl,
   fun _ => rfl, fun _ _ => rfl, fun _ _ _ => rfl, fun _ _ _ => rfl⟩

/-- C5: submitting the form issues exactly one POST whose body is the JSON
serialization of the current form state; and exactly when the response is
2xx (`response.ok`), the form is hidden, reset to its defaults, and the list
re-fetch is triggered. -/
theorem handleSubmit_one_post_and_reset (s : Applications.ApplicationsState)
    (res : FetchResult String)
    (_hc : s.formData.company ≠ "") (_hr : s.formData.role ≠ "") :
    ((Applications.handleSubmit s res).2.filter (fun r => r.method == "POST")
        = [Applications.createRequest s.formData]) ∧
    (Applications.respOk res = true ↔
      ((Applications.handleSubmit s res).1.showForm = false ∧
       (Applications.handleSubmit s res).1.formData = Applications.initialFormData ∧
       Applications.refetchRequest s ∈ (Applications.handleSubmit s res).2)) := by
  rcases res with _ | ⟨ok, b⟩
  · refine ⟨by simp [Applications.handleSubmit, Applications.createRequest], ?_⟩
    simp only [Applications.handleSubmit, Applications.respOk]
    simp [Applications.createRequest, Applications.refetchRequest]
  · cases ok
    · refine ⟨by simp [Applications.handleSubmit, Applications.createRequest], ?_⟩
      simp only [Applications.handleSubmit, Applications.respOk]
      simp [Applications.createRequest, Applications.refetchRequest]
    · refine ⟨by simp [Applications.handleSubmit, Applications.createRequest,
        Applications.refetchRequest], ?_⟩
      simp only [Applications.handleSubmit, Applications.respOk]
      simp [Applications.createRequest, Applications.refetchRequest]

/-- Concrete state for the C5 witness: filled required fields. -/
def submitDemoState : Applications.ApplicationsState :=
  { Applications.appsInitialState with
    formData := { Applications.initialFormData with company := "Acme", role := "Dev" } }

/-- C5 witness at a 2xx response. -/
theorem handleSubmit_one_post_and_reset_witness :
    submitDemoState.formData.company ≠ "" ∧ submitDemoState.formData.role ≠ "" ∧
    (((Applications.handleSubmit submitDemoState (.response true none)).2.filter
          (fun r => r.method == "POST")
        = [Applications.createRequest submitDemoState.formData]) ∧
      (Applications.respOk (.response true none) = true ↔
        ((Applications.handleSubmit submitDemoState (.response true none)).1.showForm = false ∧
         (Applications.handleSubmit submitDemoState (.response true none)).1.formData
            = Applications.initialFormData ∧
         Applications.refetchRequest submitDemoState
            ∈ (Applications.handleSubmit submitDemoState (.response true none)).2))) :=
  ⟨by decide, by decide,
   handleSubmit_one_post_and_reset submitDemoState (.response true none)
     (by decide) (by decide)⟩

/-- C6: a declined confirmation prompt leaves the state untouched and issues
no request; an accepted one issues exactly one DELETE for the row id,
followed (whenever the DELETE resolves) by exactly one list re-fetch. -/
theorem handleDelete_confirm_delete_refetch (s : Applications.ApplicationsState)
    (id : Nat) (res : FetchResult String) :
    (Applications.handleDelete s id .declined res = (s, [])) ∧
    (res ≠ .networkError →
      (Applications.handleDelete s id .accepted res).2
        = [Applications.deleteRequest id, Applications.refetchRequest s]) := by
  refine ⟨rfl, ?_⟩
  intro h
  rcases res with _ | ⟨ok, b⟩
  · exact absurd rfl h
  · rfl

/-- C6 witness at row id 7 and a resolving DELETE. -/
theorem handleDelete_confirm_delete_refetch_witness :
    ((.response true none : FetchResult String) ≠ .networkError) ∧
    (Applications.handleDelete Applications.appsInitialState 7 .accepted
        (.response true none)).2
      = [Applications.deleteRequest 7, Applications.refetchRequest Applications.appsInitialState] :=
  ⟨by decide,
   (handleDelete_confirm_delete_refetch Applications.appsInitialState 7
     (.response true none)).2 (by decide)⟩

/-- C7: clicking a company invokes its detail fetch once, issuing exactly
the detail request(s) of that variant; updating a manual status issues the
PUT with body `{"status": ...}` and then — whenever the PUT resolves, for
the company currently selected — re-fetches both the detail view and the
companies list. -/
theorem companyClick_once_and_statusUpdate_refreshes :
    (∀ (s : Companies.CompaniesState) (name : String) (res : FetchResult String),
        (Companies.fetchCompanyDetails s name res).2 = [Companies.statsRequest name]) ∧
    (∀ (s : Companies.CompaniesState) (name status : String) (res : FetchResult String),
        res ≠ .networkError → s.selectedCompany = some name →
        (Companies.updateCompanyStatus s name status res).2
          = [companyStatusPut name status, companiesListRequest,
             Companies.statsRequest name]) ∧
    (∀ (s : CompaniesNotes.CompaniesState) (name : String)
        (rApps : FetchResult String) (rDetails : FetchResult CompaniesNotes.DetailsPayload),
        (CompaniesNotes.fetchCompanyDetails s name rApps rDetails).2
          = [CompaniesNotes.companyRequest name, CompaniesNotes.detailsRequest name]) ∧
    (∀ (s : CompaniesNotes.CompaniesState) (name status : String) (res : FetchResult String),
        res ≠ .networkError → s.selectedCompany = some name →
        (CompaniesNotes.updateStatus s status res).2
          = [companyStatusPut name status, CompaniesNotes.companyRequest name,
             CompaniesNotes.detailsRequest name, companiesListRequest]) := by
  refine ⟨?_, ?_, ?_, ?_⟩
  · intro s name res
    rcases res with _ | ⟨ok, _ | b⟩ <;> rfl
  · intro s name status res hres hsel
    rcases res with _ | ⟨ok, b⟩
    · exact absurd rfl hres
    · simp [Companies.updateCompanyStatus, hsel]
  · intro s name rApps rDetails
    rcases rApps with _ | ⟨o1, _ | a⟩ <;> rcases rDetails with _ | ⟨o2, _ | d⟩ <;> rfl
  · intro s name status res hres hsel
    rcases res with _ | ⟨ok, b⟩
    · exact absurd rfl hres
    · simp [CompaniesNotes.updateStatus, hsel]

/-- Concrete state for the C7 witness: the company `Acme` is selected. -/
def companiesDemoState : Companies.CompaniesState :=
  { Companies.companiesInitialState with selectedCompany := some "Acme" }

/-- C7 witness: a resolving status PUT for the selected company `Acme`. -/
theorem companyClick_once_and_statusUpdate_refreshes_witness :
    ((.response true none : FetchResult String) ≠ .networkError) ∧
    companiesDemoState.selectedCompany = some "Acme" ∧
    (Companies.updateCompanyStatus companiesDemoState "Acme" "interested"
        (.response true none)).2
      = [companyStatusPut "Acme" "interested", companiesListRequest,
         Companies.statsRequest "Acme"] :=
  ⟨by decide, rfl,
   (companyClick_once_and_statusUpdate_refreshes).2.1 companiesDemoState "Acme" "interested"
     (.response true none) (by decide) rfl⟩

/-- C8 (counterexample): a rejected status PUT on the search-bar Companies
variant changes nothing at all — in particular no error is shown, the catch
only logs to the console, refuting the claim that every failed mutation
shows the generic error. -/
theorem statusUpdate_failure_shows_no_error :
    (Companies.updateCompanyStatus Companies.companiesInitialState "Acme" "interested"
        .networkError).1 = Companies.companiesInitialState ∧
    Companies.companiesInitialState.error = none :=
  ⟨rfl, rfl⟩

/-- C8 (amended): a failed (rejected) mutation performs no rollback and
leaves every state field except `error` exactly as it was: application
create and delete failures and the notes-variant status update set their
generic error strings, while the search-variant status update leaves the
state — including `error` — completely unchanged, logging to the console
only. -/
theorem mutation_failure_preserves_state :
    (∀ s : Applications.ApplicationsState,
        (Applications.handleSubmit s .networkError).1
          = { s with error := some "Failed to create application" }) ∧
    (∀ (s : Applications.ApplicationsState) (id : Nat),
        (Applications.handleDelete s id .accepted .networkError).1
          = { s with error := some "Failed to delete application" }) ∧
    (∀ (s : Companies.CompaniesState) (name status : String),
        (Companies.updateCompanyStatus s name status .networkError).1 = s) ∧
    (∀ (s : CompaniesNotes.CompaniesState) (status : String),
        (CompaniesNotes.updateStatus s status .networkError).1
          = { s with error := some "Failed to update status" }) :=
  ⟨fun _ => rfl, fun _ _ => rfl, fun _ _ _ => rfl, fun _ _ => rfl⟩

/-- C9: a POST answered by a non-2xx response (no throw) leaves
`handleSubmit` doing nothing: the state — error message, form data, form
visibility — is exactly unchanged and the only request issued is the POST
itself, with no re-fetch. -/
theorem handleSubmit_nonOk_noop (s : Applications.ApplicationsState) (b : Option String) :
    Applications.handleSubmit s (.response false b)
      = (s, [Applications.createRequest s.formData]) := rfl

/-- C10: the companies search is purely client side: the displayed list is
exactly the fetched companies whose lower-cased name includes the
lower-cased term, in their original order (a sublist); and typing in the
box issues no request and leaves the fetched companies untouched. -/
theorem companies_filter_client_side :
    (∀ (cs : List Company) (t : String) (c : Company),
        c ∈ Companies.filteredCompanies cs t ↔
          c ∈ cs ∧ strIncludes (jsToLowerCase c.company_name) (jsToLowerCase t) = true) ∧
    (∀ (cs : List Company) (t : String), (Companies.filteredCompanies cs t).Sublist cs) ∧
    (∀ (s : Companies.CompaniesState) (t : String),
        (Companies.setSearchTerm s t).2 = [] ∧
        (Companies.setSearchTerm s t).1.companies = s.companies ∧
        Companies.displayedCompanies (Companies.setSearchTerm s t).1
          = Companies.filteredCompanies s.companies t) := by
  refine ⟨?_, ?_, ?_⟩
  · intro cs t c
    simp [Companies.filteredCompanies, List.mem_filter]
  · intro cs t
    exact List.filter_sublist cs
  · intro s t
    exact ⟨rfl, rfl, rfl⟩
